import Mathlib

/-
Verification of the game engine generated by src/lib/builder.py
(method generate_javascript).  The builder emits a JavaScript engine as a
string; the definitions below are a shallow embedding of that engine:

  - gameState            -> GameState (record)
  - initializeDeck       -> initializeDeck
  - shuffleDeck          -> shuffleDeck / shuffleAux (Fisher-Yates loop)
  - drawCard             -> drawCard / drawCardCore
  - applyCurrentCard     -> applyCurrentCard
  - applyCardEffects     -> applyCardEffects
  - pullBlock            -> pullBlock (dice-pool trial loop = countLost)
  - adjustTokens         -> adjustTokens
  - checkGameEnd         -> checkGameEnd
  - endGame              -> endGame

Randomness (Math.random()) is modelled as a stream of rationals
rand : Nat -> Rat together with a cursor k : Nat; every function that
consumes randomness returns the advanced cursor.  Math.random() yields
values in [0,1); theorems that depend on that range take it as a
hypothesis on the concrete draws involved.

DOM updates (updateTokenDisplay, updateStabilityDisplay, updateDeckDisplay,
updateHistoryDisplay, displayCard, alert) do not touch gameState and are
not modelled.  localStorage persistence (saveGameState) is an external
collaborator and is not modelled.  The message shown by endGame(reason)
is modelled by the ghost field endReason (the last reason passed to
endGame); gameEnded is the real gameState.gameEnded flag.
-/

namespace Wretched

inductive Suit
  | spades | hearts | diamonds | clubs
deriving DecidableEq

inductive Rank
  | A | K | Q | J | ten | nine | eight | seven | six | five | four | three | two
deriving DecidableEq

/-- A card identity, as pushed by initializeDeck: { suit, value }. -/
structure Card where
  suit : Suit
  value : Rank
deriving DecidableEq

/-- One entry of CARD_DATA (cards.yaml): title, description, tokens, blocks. -/
structure CardData where
  title : String
  description : String
  tokens : Int
  blocks : Int
deriving DecidableEq

/-- The parts of GAME_CONFIG.mechanics the engine reads. -/
structure Config where
  tokensInitial : Int
  stabilityInitial : Int
  danger : Int
  critical : Int
  reshuffle : Bool
deriving DecidableEq

/-- Which endGame(reason) message was shown last (ghost observation). -/
inductive EndReason
  | stability | tokens | win
deriving DecidableEq

/-- The blocking notices the engine surfaces via alert-and-return. -/
inductive EngineError
  | EmptyDeck | DrawWhilePending | NoPendingCard
deriving DecidableEq

/-- The mutable gameState object of the generated engine. -/
structure GameState where
  tokens : Int
  stability : Int
  deck : List Card
  drawnCards : List Card
  cardHistory : List (Card × CardData)
  pendingCard : Option (Card × CardData)
  gameEnded : Bool
  endReason : Option EndReason
deriving DecidableEq

/-- Suits in the order initializeDeck iterates them. -/
def suits : List Suit := [.spades, .hearts, .diamonds, .clubs]

/-- Values in the order initializeDeck iterates them. -/
def values : List Rank :=
  [.A, .K, .Q, .J, .ten, .nine, .eight, .seven, .six, .five, .four, .three, .two]

/-- The deck contents after the two push loops of initializeDeck,
before shuffling. -/
def fullDeck : List Card :=
  (suits.map (fun s => values.map (fun v => { suit := s, value := v }))).flatten

/-- JS array element swap [l[i], l[j]] = [l[j], l[i]] (identity when an
index is out of range; shuffleDeck only uses in-range indices). -/
def listSwap {α : Type} (l : List α) (i j : Nat) : List α :=
  match l.get? i, l.get? j with
  | some a, some b => (l.set i b).set j a
  | _, _ => l

/-- The loop of shuffleDeck: for (i = length-1; i > 0; i--) swap i with
j = floor(random() * (i+1)).  The first argument of the recursion is the
current loop index i. -/
def shuffleAux (rand : Nat → ℚ) : Nat → List Card → Nat → List Card × Nat
  | 0, l, k => (l, k)
  | i + 1, l, k =>
      let j := (Int.floor (rand k * ((i : ℚ) + 2))).toNat
      shuffleAux rand i (listSwap l (i + 1) j) (k + 1)

/-- shuffleDeck(): in-place Fisher-Yates over the current deck. -/
def shuffleDeck (rand : Nat → ℚ) (l : List Card) (k : Nat) : List Card × Nat :=
  shuffleAux rand (l.length - 1) l k

/-- initializeDeck(): repopulate gameState.deck with the 52 cards and
shuffle it; no other gameState field is touched. -/
def initializeDeck (rand : Nat → ℚ) (s : GameState) (k : Nat) : GameState × Nat :=
  let p := shuffleDeck rand fullDeck k
  ({ s with deck := p.1 }, p.2)

/-- endGame(reason): set gameState.gameEnded and show the message for
the given reason (recorded in the ghost field endReason).  Button
disabling is DOM-only and not part of gameState. -/
def endGame (reason : EndReason) (s : GameState) : GameState :=
  { s with gameEnded := true, endReason := some reason }

/-- checkGameEnd(): loss checks first (stability, then tokens), then the
deck-empty win check. -/
def checkGameEnd (s : GameState) : GameState :=
  if s.stability ≤ 0 then endGame .stability s
  else if s.tokens ≤ 0 then endGame .tokens s
  else if s.deck.length = 0 ∧ 0 < s.tokens ∧ 0 < s.stability then endGame .win s
  else s

/-- The failureThreshold computed at the top of pullBlock(). -/
def failureThreshold (cfg : Config) (s : GameState) : Int :=
  if s.stability ≤ cfg.critical then 3
  else if s.stability ≤ cfg.danger then 2
  else 1

/-- The dice-pool loop of pullBlock(): the number of indices i < n whose
draw r = rand (k+i) satisfies the code's condition r * 6 + 1 <= t. -/
def countLost (rand : Nat → ℚ) (t : Int) (k n : Nat) : Nat :=
  ((List.range n).filter (fun i => decide (rand (k + i) * 6 + 1 ≤ (t : ℚ)))).length

/-- pullBlock(): no-op when stability <= 0; otherwise run one trial per
current stability block, subtract the losses, clamp at 0, and call
endGame('stability') when the result is exactly 0. -/
def pullBlock (cfg : Config) (rand : Nat → ℚ) (s : GameState) (k : Nat) :
    GameState × Nat :=
  if s.stability ≤ 0 then (s, k)
  else
    let t := failureThreshold cfg s
    let n := s.stability.toNat
    let lost : Int := (countLost rand t k n : Int)
    let st1 := s.stability - lost
    let st2 := if st1 < 0 then 0 else st1
    let s1 := { s with stability := st2 }
    (if st2 = 0 then endGame .stability s1 else s1, k + n)

/-- pullBlock with the post-subtraction clamp branch removed; used to
state that the clamp is unreachable. -/
def pullBlockNoClamp (cfg : Config) (rand : Nat → ℚ) (s : GameState) (k : Nat) :
    GameState × Nat :=
  if s.stability ≤ 0 then (s, k)
  else
    let t := failureThreshold cfg s
    let n := s.stability.toNat
    let lost : Int := (countLost rand t k n : Int)
    let st1 := s.stability - lost
    let s1 := { s with stability := st1 }
    (if st1 = 0 then endGame .stability s1 else s1, k + n)

/-- The for-loop of applyCardEffects: m sequential calls to pullBlock(). -/
def pullBlocks (cfg : Config) (rand : Nat → ℚ) : Nat → GameState → Nat → GameState × Nat
  | 0, s, k => (s, k)
  | m + 1, s, k =>
      let p := pullBlock cfg rand s k
      pullBlocks cfg rand m p.1 p.2

/-- pullBlock as a step on (state, cursor) pairs, for iterate lemmas. -/
def pullBlockP (cfg : Config) (rand : Nat → ℚ) : GameState × Nat → GameState × Nat :=
  fun p => pullBlock cfg rand p.1 p.2

/-- adjustTokens(amount): gameState.tokens += amount (no clamp, no
end-condition check). -/
def adjustTokens (amount : Int) (s : GameState) : GameState :=
  { s with tokens := s.tokens + amount }

/-- applyCardEffects(cardData): add the token delta when truthy (nonzero),
run the block-pull loop when blocks > 0, then checkGameEnd(). -/
def applyCardEffects (cfg : Config) (rand : Nat → ℚ) (cd : CardData)
    (s : GameState) (k : Nat) : GameState × Nat :=
  let s1 := if cd.tokens ≠ 0 then { s with tokens := s.tokens + cd.tokens } else s
  let p := if 0 < cd.blocks then pullBlocks cfg rand cd.blocks.toNat s1 k else (s1, k)
  (checkGameEnd p.1, p.2)

/-- The history update of applyCurrentCard: unshift the entry, then pop
the last element when the length exceeds 10. -/
def histPush (e : Card × CardData) (h : List (Card × CardData)) :
    List (Card × CardData) :=
  let h1 := e :: h
  if 10 < h1.length then h1.dropLast else h1

/-- applyCurrentCard(): blocked with NoPendingCard when nothing is
pending; otherwise push the pending card onto cardHistory, apply its
effects, and clear pendingCard. -/
def applyCurrentCard (cfg : Config) (rand : Nat → ℚ) (s : GameState) (k : Nat) :
    GameState × Nat × Option EngineError :=
  match s.pendingCard with
  | none => (s, k, some .NoPendingCard)
  | some e =>
      let s1 := { s with cardHistory := histPush e s.cardHistory }
      let p := applyCardEffects cfg rand e.2 s1 k
      ({ p.1 with pendingCard := none }, p.2, none)

/-- The part of drawCard() after the empty-deck handling: the pending-card
check, then deck.pop() and the CARD_DATA lookup.  The getLast? none case
is unreachable from drawCard (the deck is nonempty there); it is mapped
to the EmptyDeck notice. -/
def drawCardCore (cardTable : Card → CardData) (s : GameState) (k : Nat) :
    GameState × Nat × Option EngineError :=
  if s.pendingCard.isSome then (s, k, some .DrawWhilePending)
  else
    match s.deck.getLast? with
    | none => (s, k, some .EmptyDeck)
    | some c =>
        ({ s with deck := s.deck.dropLast, pendingCard := some (c, cardTable c) },
         k, none)

/-- drawCard(): on an empty deck either reshuffle (when configured) or
block with EmptyDeck; note that the reshuffle happens before the
pending-card check. -/
def drawCard (cfg : Config) (rand : Nat → ℚ) (cardTable : Card → CardData)
    (s : GameState) (k : Nat) : GameState × Nat × Option EngineError :=
  if s.deck.length = 0 then
    if cfg.reshuffle then
      let p := initializeDeck rand s k
      drawCardCore cardTable p.1 p.2
    else (s, k, some .EmptyDeck)
  else drawCardCore cardTable s k

/- ------------------------------------------------------------------ -/
/- Concrete instances used for counterexamples and witnesses           -/
/- ------------------------------------------------------------------ -/

/-- A deterministic random stream: every draw is 0 (in [0,1)). -/
def rand0 : Nat → ℚ := fun _ => 0

/-- A sample card identity. -/
def cardX : Card := { suit := .spades, value := .A }

/-- A second sample card identity. -/
def cardY : Card := { suit := .hearts, value := .K }

/-- A card-data record with no effects. -/
def dataZero : CardData := { title := "t", description := "d", tokens := 0, blocks := 0 }

/-- A card table mapping every identity to the no-effect record. -/
def tbl0 : Card → CardData := fun _ => dataZero

/-- A sample configuration (danger 3, critical 1, reshuffle off). -/
def cfg0 : Config :=
  { tokensInitial := 10, stabilityInitial := 10, danger := 3, critical := 1,
    reshuffle := false }

/-- cfg0 with reshuffle-on-empty enabled. -/
def cfgR : Config := { cfg0 with reshuffle := true }

/-- A sample healthy mid-game state. -/
def baseState : GameState :=
  { tokens := 10, stability := 10, deck := [], drawnCards := [], cardHistory := [],
    pendingCard := none, gameEnded := false, endReason := none }

/-- Safe-band configuration for the probability divergence: stability 5 is
above danger 2, so failureThreshold is 1. -/
def cfg2 : Config :=
  { tokensInitial := 5, stabilityInitial := 5, danger := 2, critical := 1,
    reshuffle := false }

/-- Every uniform draw is 1/10, which is below 1/6. -/
def rand2 : Nat → ℚ := fun _ => 1 / 10

/-- Safe-band state for the probability divergence. -/
def s2 : GameState := { baseState with tokens := 5, stability := 5 }

/-- Empty deck with a pending card (the atomicity corner case). -/
def s3 : GameState := { baseState with deck := [], pendingCard := some (cardX, dataZero) }

/-- A terminal (gameEnded) state with a nonempty deck and nothing pending. -/
def s4 : GameState :=
  { baseState with deck := [cardX], gameEnded := true, endReason := some .tokens }

/-- Configuration for the end-condition precedence scenario. -/
def cfg5 : Config :=
  { tokensInitial := 1, stabilityInitial := 1, danger := 3, critical := 1,
    reshuffle := false }

/-- The scenario card: token_delta -1, one block pull. -/
def card5 : Card × CardData :=
  (cardX, { title := "t", description := "d", tokens := -1, blocks := 1 })

/-- Scenario state: tokens 1, stability 1, card5 pending. -/
def s5 : GameState :=
  { tokens := 1, stability := 1, deck := [], drawnCards := [], cardHistory := [],
    pendingCard := some card5, gameEnded := false, endReason := none }

/-- Configuration whose danger band starts at 4. -/
def cfg6 : Config :=
  { tokensInitial := 5, stabilityInitial := 5, danger := 4, critical := 1,
    reshuffle := false }

/-- State with stability 5, above the danger band of cfg6. -/
def s6 : GameState := { baseState with tokens := 5, stability := 5 }

/-- Draws 0, 0 then 1/2 forever: exactly two of the five first trials lose. -/
def rand6 : Nat → ℚ := fun n => if n < 2 then 0 else 1 / 2

/-- An 11-entry starting history (as a loaded save could contain). -/
def hist11 : List (Card × CardData) := List.replicate 11 (cardX, dataZero)

/-- Eleven distinct card identities. -/
def deck11 : List Card :=
  [{ suit := .spades, value := .A }, { suit := .spades, value := .K },
   { suit := .spades, value := .Q }, { suit := .spades, value := .J },
   { suit := .spades, value := .ten }, { suit := .spades, value := .nine },
   { suit := .spades, value := .eight }, { suit := .spades, value := .seven },
   { suit := .spades, value := .six }, { suit := .spades, value := .five },
   { suit := .spades, value := .four }]

/-- Start state for the history-cap run: 11 cards to draw, 11 old entries. -/
def s8 : GameState :=
  { baseState with
    tokens := 100
    stability := 100
    deck := deck11
    cardHistory := hist11 }

/-- One player round: drawCard then applyCurrentCard. -/
def round8 : GameState × Nat → GameState × Nat := fun p =>
  let d := drawCard cfg0 rand0 tbl0 p.1 p.2
  let a := applyCurrentCard cfg0 rand0 d.1 d.2.1
  (a.1, a.2.1)

/- ------------------------------------------------------------------ -/
/- Helper lemmas                                                       -/
/- ------------------------------------------------------------------ -/

theorem cons_set_perm {α : Type} :
    ∀ (xs : List α) (m : Nat) (x b : α),
      xs.get? m = some b → (b :: xs.set m x).Perm (x :: xs)
  | [], m, _, _, h => by simp at h
  | y :: t, 0, x, b, h => by
      simp only [List.get?] at h
      cases h
      simpa [List.set] using List.Perm.swap x y t
  | y :: t, m + 1, x, b, h => by
      simp only [List.get?] at h
      have ih := cons_set_perm t m x b h
      show (b :: y :: t.set m x).Perm (x :: y :: t)
      exact ((List.Perm.swap y b _).trans (ih.cons y)).trans (List.Perm.swap x y t)

theorem set_set_swap_perm {α : Type} :
    ∀ (l : List α) (i j : Nat) (a b : α),
      l.get? i = some a → l.get? j = some b → ((l.set i b).set j a).Perm l
  | [], _, _, _, _, hi, _ => by simp at hi
  | x :: t, 0, 0, a, b, hi, hj => by
      simp only [List.get?] at hi hj
      cases hi; cases hj
      simp [List.set]
  | x :: t, 0, j + 1, a, b, hi, hj => by
      simp only [List.get?] at hi hj
      cases hi
      simpa [List.set] using cons_set_perm t j x b hj
  | x :: t, i + 1, 0, a, b, hi, hj => by
      simp only [List.get?] at hi hj
      cases hj
      simpa [List.set] using cons_set_perm t i x a hi
  | x :: t, i + 1, j + 1, a, b, hi, hj => by
      simp only [List.get?] at hi hj
      simpa [List.set] using (set_set_swap_perm t i j a b hi hj).cons x

theorem listSwap_perm {α : Type} (l : List α) (i j : Nat) :
    (listSwap l i j).Perm l := by
  unfold listSwap
  cases hi : l.get? i with
  | none => simp
  | some a =>
      cases hj : l.get? j with
      | none => simp
      | some b => exact set_set_swap_perm l i j a b hi hj

theorem shuffleAux_perm (rand : Nat → ℚ) :
    ∀ (i : Nat) (l : List Card) (k : Nat), (shuffleAux rand i l k).1.Perm l
  | 0, l, k => List.Perm.refl l
  | i + 1, l, k => by
      unfold shuffleAux
      exact (shuffleAux_perm rand i _ _).trans (listSwap_perm l (i + 1) _)

theorem shuffleDeck_perm (rand : Nat → ℚ) (l : List Card) (k : Nat) :
    (shuffleDeck rand l k).1.Perm l :=
  shuffleAux_perm rand (l.length - 1) l k

/- Frame facts: which gameState fields each operation leaves alone. -/

theorem endGame_frame (r : EndReason) (s : GameState) :
    (endGame r s).tokens = s.tokens ∧ (endGame r s).stability = s.stability ∧
    (endGame r s).deck = s.deck ∧ (endGame r s).cardHistory = s.cardHistory ∧
    (endGame r s).pendingCard = s.pendingCard :=
  ⟨rfl, rfl, rfl, rfl, rfl⟩

theorem checkGameEnd_frame (s : GameState) :
    (checkGameEnd s).tokens = s.tokens ∧ (checkGameEnd s).stability = s.stability ∧
    (checkGameEnd s).deck = s.deck ∧ (checkGameEnd s).cardHistory = s.cardHistory ∧
    (checkGameEnd s).pendingCard = s.pendingCard := by
  unfold checkGameEnd
  split
  · exact endGame_frame _ s
  · split
    · exact endGame_frame _ s
    · split
      · exact endGame_frame _ s
      · exact ⟨rfl, rfl, rfl, rfl, rfl⟩

theorem pullBlock_frame (cfg : Config) (rand : Nat → ℚ) (s : GameState) (k : Nat) :
    (pullBlock cfg rand s k).1.tokens = s.tokens ∧
    (pullBlock cfg rand s k).1.deck = s.deck ∧
    (pullBlock cfg rand s k).1.cardHistory = s.cardHistory ∧
    (pullBlock cfg rand s k).1.pendingCard = s.pendingCard := by
  unfold pullBlock endGame
  dsimp only
  split_ifs <;> simp

theorem pullBlocks_frame (cfg : Config) (rand : Nat → ℚ) :
    ∀ (m : Nat) (s : GameState) (k : Nat),
      (pullBlocks cfg rand m s k).1.tokens = s.tokens ∧
      (pullBlocks cfg rand m s k).1.deck = s.deck ∧
      (pullBlocks cfg rand m s k).1.cardHistory = s.cardHistory ∧
      (pullBlocks cfg rand m s k).1.pendingCard = s.pendingCard
  | 0, s, k => ⟨rfl, rfl, rfl, rfl⟩
  | m + 1, s, k => by
      unfold pullBlocks
      have h1 := pullBlock_frame cfg rand s k
      have h2 := pullBlocks_frame cfg rand m (pullBlock cfg rand s k).1
        (pullBlock cfg rand s k).2
      exact ⟨h2.1.trans h1.1, h2.2.1.trans h1.2.1,
        h2.2.2.1.trans h1.2.2.1, h2.2.2.2.trans h1.2.2.2⟩

theorem pullBlock_stability_nonneg (cfg : Config) (rand : Nat → ℚ)
    (s : GameState) (k : Nat) (h : 0 ≤ s.stability) :
    0 ≤ (pullBlock cfg rand s k).1.stability := by
  unfold pullBlock endGame
  dsimp only
  split_ifs <;> simp <;> omega

theorem pullBlocks_stability_nonneg (cfg : Config) (rand : Nat → ℚ) :
    ∀ (m : Nat) (s : GameState) (k : Nat), 0 ≤ s.stability →
      0 ≤ (pullBlocks cfg rand m s k).1.stability
  | 0, s, k, h => h
  | m + 1, s, k, h => by
      unfold pullBlocks
      exact pullBlocks_stability_nonneg cfg rand m _ _
        (pullBlock_stability_nonneg cfg rand s k h)

theorem countLost_le (rand : Nat → ℚ) (t : Int) (k n : Nat) :
    countLost rand t k n ≤ n := by
  unfold countLost
  calc ((List.range n).filter _).length ≤ (List.range n).length :=
        List.length_filter_le _ _
    _ = n := List.length_range n

theorem pullBlock_eq_pullBlockNoClamp (cfg : Config) (rand : Nat → ℚ)
    (s : GameState) (k : Nat) :
    pullBlock cfg rand s k = pullBlockNoClamp cfg rand s k := by
  unfold pullBlock pullBlockNoClamp
  split
  · rfl
  · rename_i h
    dsimp only
    have hle := countLost_le rand (failureThreshold cfg s) k s.stability.toNat
    have h0 : ¬ (s.stability -
        ((countLost rand (failureThreshold cfg s) k s.stability.toNat : Nat) : Int) < 0) := by
      omega
    rw [if_neg h0]

theorem pullBlocks_eq_iterate (cfg : Config) (rand : Nat → ℚ) :
    ∀ (m : Nat) (s : GameState) (k : Nat),
      pullBlocks cfg rand m s k = (pullBlockP cfg rand)^[m] (s, k)
  | 0, _, _ => rfl
  | m + 1, s, k => by
      rw [Function.iterate_succ_apply]
      exact pullBlocks_eq_iterate cfg rand m _ _

theorem applyCardEffects_cardHistory (cfg : Config) (rand : Nat → ℚ)
    (cd : CardData) (s : GameState) (k : Nat) :
    (applyCardEffects cfg rand cd s k).1.cardHistory = s.cardHistory := by
  unfold applyCardEffects
  dsimp only
  rw [(checkGameEnd_frame _).2.2.2.1]
  split
  · rw [(pullBlocks_frame cfg rand _ _ _).2.2.1]
    split <;> rfl
  · split <;> rfl

theorem drawCard_pop (cfg : Config) (rand : Nat → ℚ) (tbl : Card → CardData)
    (s : GameState) (k : Nat) (c : Card) (hp : s.pendingCard = none)
    (hl : s.deck.getLast? = some c) :
    drawCard cfg rand tbl s k =
      ({ s with deck := s.deck.dropLast, pendingCard := some (c, tbl c) }, k, none) := by
  have hne : s.deck ≠ [] := by
    intro h
    rw [h] at hl
    simp at hl
  unfold drawCard drawCardCore
  rw [if_neg (by simpa [List.length_eq_zero] using hne), hp]
  simp only [Option.isSome_none, Bool.false_eq_true, if_false, hl]

theorem pullBlocks_one (cfg : Config) (rand : Nat → ℚ) (s : GameState) (k : Nat) :
    pullBlocks cfg rand 1 s k = pullBlock cfg rand s k := rfl

theorem applyCardEffects_decomp (cfg : Config) (rand : Nat → ℚ) (cd : CardData)
    (s : GameState) (k : Nat) :
    applyCardEffects cfg rand cd s k =
      (checkGameEnd (pullBlocks cfg rand cd.blocks.toNat
          { s with tokens := s.tokens + cd.tokens } k).1,
       (pullBlocks cfg rand cd.blocks.toNat
          { s with tokens := s.tokens + cd.tokens } k).2) := by
  unfold applyCardEffects
  dsimp only
  have hs1 : (if cd.tokens ≠ 0 then { s with tokens := s.tokens + cd.tokens } else s) =
      { s with tokens := s.tokens + cd.tokens } := by
    split
    · rfl
    · rename_i ht
      rw [not_not.mp ht, add_zero]
  rw [hs1]
  split
  · rfl
  · rename_i hb
    have h0 : cd.blocks.toNat = 0 := Int.toNat_of_nonpos (by omega)
    rw [h0]
    rfl

/- ------------------------------------------------------------------ -/
/- Claim theorems                                                      -/
/- ------------------------------------------------------------------ -/

/-- C9: in one pullBlock the loss count never exceeds the number of trials
(the current stability), so the result of the subtraction is non-negative,
the post-subtraction clamp branch is unreachable (pullBlock equals
pullBlockNoClamp), and every pullBlock call preserves stability at or
above 0. -/
theorem pullBlock_clamp_unreachable (cfg : Config) (rand : Nat → ℚ) :
    (∀ (t : Int) (k n : Nat), countLost rand t k n ≤ n)
  ∧ (∀ (s : GameState) (k : Nat), 0 ≤ s.stability →
        0 ≤ (pullBlock cfg rand s k).1.stability)
  ∧ (∀ (s : GameState) (k : Nat),
        pullBlock cfg rand s k = pullBlockNoClamp cfg rand s k) :=
  ⟨fun t k n => countLost_le rand t k n,
   fun s k h => pullBlock_stability_nonneg cfg rand s k h,
   fun s k => pullBlock_eq_pullBlockNoClamp cfg rand s k⟩

/-- C9 witness: the theorem applied at a concrete state. -/
theorem pullBlock_clamp_unreachable_witness :
    0 ≤ (pullBlock cfg0 rand0 { baseState with stability := 3 } 0).1.stability :=
  (pullBlock_clamp_unreachable cfg0 rand0).2.1 { baseState with stability := 3 } 0
    (by decide)

/-- C10: adjustTokens changes only the tokens counter (by exactly the
requested amount, even below zero) and leaves the deck, stability,
pending card, history, drawn cards, gameEnded flag and end message
untouched: it never invokes checkGameEnd. -/
theorem adjustTokens_frame_only (n : Int) (s : GameState) :
    (adjustTokens n s).tokens = s.tokens + n
  ∧ (adjustTokens n s).deck = s.deck
  ∧ (adjustTokens n s).stability = s.stability
  ∧ (adjustTokens n s).pendingCard = s.pendingCard
  ∧ (adjustTokens n s).cardHistory = s.cardHistory
  ∧ (adjustTokens n s).drawnCards = s.drawnCards
  ∧ (adjustTokens n s).gameEnded = s.gameEnded
  ∧ (adjustTokens n s).endReason = s.endReason :=
  ⟨rfl, rfl, rfl, rfl, rfl, rfl, rfl, rfl⟩

/-- C1 counterexample: tokens are NOT clamped at a floor of 0.  From
tokens = 1, a manual adjustment of -2 leaves tokens = -1, and applying a
card with token delta -2 also leaves tokens = -1: the counter is observed
below 0 right after the operation completes. -/
theorem tokens_floor_counterexample :
    (adjustTokens (-2) { baseState with tokens := 1 }).tokens < 0
  ∧ (applyCardEffects cfg0 rand0 { dataZero with tokens := -2 }
      { baseState with tokens := 1 } 0).1.tokens < 0 := by
  refine ⟨by decide, by decide⟩

/-- C1 amended: stability is clamped at a floor of 0 (applyCardEffects
preserves non-negative stability), but tokens are not clamped:
adjustTokens and applyCardEffects change tokens by exactly the delta,
so negative deltas can drive the tokens counter below 0. -/
theorem resource_floor_amended (cfg : Config) (rand : Nat → ℚ) :
    (∀ (s : GameState) (k : Nat) (cd : CardData), 0 ≤ s.stability →
        0 ≤ (applyCardEffects cfg rand cd s k).1.stability)
  ∧ (∀ (s : GameState) (n : Int), (adjustTokens n s).tokens = s.tokens + n)
  ∧ (∀ (s : GameState) (k : Nat) (cd : CardData),
        (applyCardEffects cfg rand cd s k).1.tokens = s.tokens + cd.tokens) := by
  refine ⟨?_, ?_, ?_⟩
  · intro s k cd h
    unfold applyCardEffects
    dsimp only
    rw [(checkGameEnd_frame _).2.1]
    have hs1 : 0 ≤ (if cd.tokens ≠ 0 then
        { s with tokens := s.tokens + cd.tokens } else s).stability := by
      split <;> exact h
    split
    · exact pullBlocks_stability_nonneg cfg rand _ _ _ hs1
    · exact hs1
  · intro s n
    rfl
  · intro s k cd
    unfold applyCardEffects
    dsimp only
    rw [(checkGameEnd_frame _).1]
    have hs1 : (if cd.tokens ≠ 0 then
        { s with tokens := s.tokens + cd.tokens } else s).tokens =
        s.tokens + cd.tokens := by
      split
      · rfl
      · rename_i ht
        have h0 : cd.tokens = 0 := not_not.mp ht
        rw [h0, add_zero]
    split
    · rw [(pullBlocks_frame cfg rand _ _ _).1]
      exact hs1
    · exact hs1

/-- C1 amended witness: the theorem applied at a concrete state. -/
theorem resource_floor_amended_witness :
    0 ≤ (applyCardEffects cfg0 rand0 dataZero baseState 0).1.stability :=
  (resource_floor_amended cfg0 rand0).1 baseState 0 dataZero (by decide)

/-- C2: the generated code loses a block when
Math.random() * 6 + 1 <= failureThreshold, i.e. with probability
(failureThreshold - 1) / 6, not failureThreshold / 6: in the safe band
(failureThreshold = 1) a draw of 1/10 satisfies the claimed criterion
r < failureThreshold / 6, yet the code loses none of the 5 blocks and
stability stays 5.  (The dice roller rollDice in the same file uses
Math.floor(Math.random() * 6) + 1; pullBlock omits the floor.) -/
theorem pullBlock_probability_divergence :
    failureThreshold cfg2 s2 = 1
  ∧ rand2 0 < (failureThreshold cfg2 s2 : ℚ) / 6
  ∧ countLost rand2 (failureThreshold cfg2 s2) 0 5 = 0
  ∧ (pullBlock cfg2 rand2 s2 0).1.stability = 5 := by
  have hthr : failureThreshold cfg2 s2 = 1 := by decide
  have hcount : countLost rand2 1 0 5 = 0 := by
    have hr : List.range 5 = [0, 1, 2, 3, 4] := rfl
    norm_num [countLost, hr, List.filter_cons, rand2]
  refine ⟨hthr, ?_, ?_, ?_⟩
  · rw [hthr]
    norm_num [rand2]
  · rw [hthr]
    exact hcount
  · unfold pullBlock
    rw [if_neg (by decide), hthr]
    dsimp only
    rw [show s2.stability.toNat = 5 from rfl, hcount]
    norm_num [s2, baseState]

theorem initializeDeck_eq (rand : Nat → ℚ) (s : GameState) (k : Nat) :
    initializeDeck rand s k =
      ({ s with deck := (shuffleDeck rand fullDeck k).1 },
       (shuffleDeck rand fullDeck k).2) := by
  unfold initializeDeck
  rfl

theorem initializeDeck_frame (rand : Nat → ℚ) (s : GameState) (k : Nat) :
    (initializeDeck rand s k).1.tokens = s.tokens
  ∧ (initializeDeck rand s k).1.stability = s.stability
  ∧ (initializeDeck rand s k).1.pendingCard = s.pendingCard
  ∧ (initializeDeck rand s k).1.cardHistory = s.cardHistory
  ∧ (initializeDeck rand s k).1.deck = (shuffleDeck rand fullDeck k).1 := by
  rw [initializeDeck_eq]
  dsimp only
  exact ⟨rfl, rfl, rfl, rfl, rfl⟩

theorem fullDeck_length : fullDeck.length = 52 := by decide

theorem drawCardCore_pending (tbl : Card → CardData) (s : GameState) (k : Nat)
    (hp : s.pendingCard.isSome = true) :
    drawCardCore tbl s k = (s, k, some .DrawWhilePending) := by
  unfold drawCardCore
  rw [if_pos hp]

theorem drawCard_empty_reshuffle_pending (cfg : Config) (rand : Nat → ℚ)
    (tbl : Card → CardData) (s : GameState) (k : Nat) (hd : s.deck = [])
    (hr : cfg.reshuffle = true) (hp : s.pendingCard.isSome = true) :
    drawCard cfg rand tbl s k =
      ((initializeDeck rand s k).1, (initializeDeck rand s k).2,
       some .DrawWhilePending) := by
  unfold drawCard
  rw [if_pos (by simp [hd]), if_pos hr]
  dsimp only
  have hpend : (initializeDeck rand s k).1.pendingCard.isSome = true := by
    rw [(initializeDeck_frame rand s k).2.2.1]
    exact hp
  rw [drawCardCore_pending tbl (initializeDeck rand s k).1
    (initializeDeck rand s k).2 hpend]

/-- C3 counterexample: a draw attempted while a card is pending, on an
empty deck with reshuffle enabled, is blocked with DrawWhilePending but
does NOT leave the state unchanged: the deck was empty before the call
and holds 52 cards after it (drawCard reshuffles before the pending-card
check). -/
theorem draw_reshuffle_side_effect_counterexample :
    (drawCard cfgR rand0 tbl0 s3 0).2.2 = some .DrawWhilePending
  ∧ s3.deck = []
  ∧ (drawCard cfgR rand0 tbl0 s3 0).1.deck.length = 52 := by
  rw [drawCard_empty_reshuffle_pending cfgR rand0 tbl0 s3 0 (by decide) (by decide)
    (by decide)]
  refine ⟨rfl, rfl, ?_⟩
  rw [(initializeDeck_frame rand0 s3 0).2.2.2.2,
    (shuffleDeck_perm rand0 fullDeck 0).length_eq]
  exact fullDeck_length

/-- C3 amended: every failing action leaves the engine state unchanged,
with one exception: a draw attempted while a card is pending on an empty
deck with reshuffle enabled first reinitializes and reshuffles the deck
(52 cards again) and only then blocks with DrawWhilePending; tokens,
stability, the pending card and the history are still untouched even in
that case. -/
theorem failing_actions_frame (cfg : Config) (rand : Nat → ℚ) (tbl : Card → CardData) :
    (∀ (s : GameState) (k : Nat), s.deck = [] → cfg.reshuffle = false →
        drawCard cfg rand tbl s k = (s, k, some .EmptyDeck))
  ∧ (∀ (s : GameState) (k : Nat), s.deck ≠ [] → s.pendingCard.isSome →
        drawCard cfg rand tbl s k = (s, k, some .DrawWhilePending))
  ∧ (∀ (s : GameState) (k : Nat), s.pendingCard = none →
        applyCurrentCard cfg rand s k = (s, k, some .NoPendingCard))
  ∧ (∀ (s : GameState) (k : Nat), s.deck = [] → cfg.reshuffle = true →
        s.pendingCard.isSome →
        drawCard cfg rand tbl s k =
          ((initializeDeck rand s k).1, (initializeDeck rand s k).2,
           some .DrawWhilePending)
        ∧ (initializeDeck rand s k).1.tokens = s.tokens
        ∧ (initializeDeck rand s k).1.stability = s.stability
        ∧ (initializeDeck rand s k).1.pendingCard = s.pendingCard
        ∧ (initializeDeck rand s k).1.cardHistory = s.cardHistory
        ∧ (initializeDeck rand s k).1.deck.length = 52) := by
  refine ⟨?_, ?_, ?_, ?_⟩
  · intro s k hd hr
    unfold drawCard
    rw [if_pos (by simp [hd]), if_neg (by simp [hr])]
  · intro s k hd hp
    unfold drawCard
    rw [if_neg (by simp [List.length_eq_zero, hd])]
    unfold drawCardCore
    rw [if_pos hp]
  · intro s k hp
    unfold applyCurrentCard
    rw [hp]
  · intro s k hd hr hp
    have hf := initializeDeck_frame rand s k
    refine ⟨drawCard_empty_reshuffle_pending cfg rand tbl s k hd hr hp,
      hf.1, hf.2.1, hf.2.2.1, hf.2.2.2.1, ?_⟩
    rw [hf.2.2.2.2, (shuffleDeck_perm rand fullDeck k).length_eq]
    exact fullDeck_length

/-- C3 witness: the theorem applied at a concrete state. -/
theorem failing_actions_frame_witness :
    applyCurrentCard cfg0 rand0 baseState 0 = (baseState, 0, some .NoPendingCard) :=
  (failing_actions_frame cfg0 rand0 tbl0).2.2.1 baseState 0 (by decide)

/-- C4 counterexample: a terminal state (gameEnded set) is NOT absorbing
at the engine level: drawCard invoked on an ended state with one card in
the deck and nothing pending pops the deck and sets the pending card. -/
theorem terminal_state_mutation_counterexample :
    s4.gameEnded = true
  ∧ (drawCard cfg0 rand0 tbl0 s4 0).1.pendingCard = some (cardX, tbl0 cardX)
  ∧ (drawCard cfg0 rand0 tbl0 s4 0).1.deck = [] := by
  refine ⟨by decide, by decide, by decide⟩

/-- C4 amended: terminal-state absorption is enforced only by the UI
(endGame disables the buttons in the DOM); the engine functions never
consult gameEnded, so when invoked on an ended state drawCard still pops
the deck and sets the pending card, adjustTokens still changes tokens,
and applyCurrentCard still confirms a pending card (error-free, clearing
pendingCard). -/
theorem terminal_not_absorbing (cfg : Config) (rand : Nat → ℚ) (tbl : Card → CardData) :
    (∀ (s : GameState) (k : Nat) (c : Card), s.gameEnded = true →
        s.pendingCard = none → s.deck.getLast? = some c →
        (drawCard cfg rand tbl s k).1.deck = s.deck.dropLast
        ∧ (drawCard cfg rand tbl s k).1.pendingCard = some (c, tbl c)
        ∧ (drawCard cfg rand tbl s k).2.2 = none)
  ∧ (∀ (s : GameState) (n : Int), s.gameEnded = true →
        (adjustTokens n s).tokens = s.tokens + n)
  ∧ (∀ (s : GameState) (k : Nat) (e : Card × CardData), s.gameEnded = true →
        s.pendingCard = some e →
        (applyCurrentCard cfg rand s k).2.2 = none
        ∧ (applyCurrentCard cfg rand s k).1.pendingCard = none) := by
  refine ⟨?_, ?_, ?_⟩
  · intro s k c _ hp hl
    rw [drawCard_pop cfg rand tbl s k c hp hl]
    exact ⟨rfl, rfl, rfl⟩
  · intro s n _
    rfl
  · intro s k e _ hp
    unfold applyCurrentCard
    rw [hp]
    exact ⟨rfl, rfl⟩

/-- C4 witness: the theorem applied at a concrete terminal state. -/
theorem terminal_not_absorbing_witness :
    (adjustTokens 5 s4).tokens = s4.tokens + 5 :=
  (terminal_not_absorbing cfg0 rand0 tbl0).2.1 s4 5 (by decide)

/-- C5: checkGameEnd runs with first-match-wins precedence (stability
loss, then tokens loss, then deck-exhaustion win, else unchanged), and
the spec scenario — confirm with tokens 1, stability 1, a pending card
with token delta -1 and one block pull that empties stability — resolves
to the stability loss (endReason stability) even though tokens also
reach 0 in the same confirm. -/
theorem checkGameEnd_precedence :
    (∀ s : GameState, s.stability ≤ 0 → checkGameEnd s = endGame .stability s)
  ∧ (∀ s : GameState, 0 < s.stability → s.tokens ≤ 0 →
        checkGameEnd s = endGame .tokens s)
  ∧ (∀ s : GameState, 0 < s.stability → 0 < s.tokens → s.deck = [] →
        checkGameEnd s = endGame .win s)
  ∧ (∀ s : GameState, 0 < s.stability → 0 < s.tokens → s.deck ≠ [] →
        checkGameEnd s = s)
  ∧ ((applyCurrentCard cfg5 rand0 s5 0).1.gameEnded = true
      ∧ (applyCurrentCard cfg5 rand0 s5 0).1.endReason = some .stability
      ∧ (applyCurrentCard cfg5 rand0 s5 0).1.stability = 0
      ∧ (applyCurrentCard cfg5 rand0 s5 0).1.tokens = 0) := by
  refine ⟨?_, ?_, ?_, ?_, ?_⟩
  · intro s h
    unfold checkGameEnd
    rw [if_pos h]
  · intro s h1 h2
    unfold checkGameEnd
    rw [if_neg (by omega), if_pos h2]
  · intro s h1 h2 h3
    unfold checkGameEnd
    rw [if_neg (by omega), if_neg (by omega), if_pos ⟨by simp [h3], h2, h1⟩]
  · intro s h1 h2 h3
    unfold checkGameEnd
    have hcon : ¬(s.deck.length = 0 ∧ 0 < s.tokens ∧ 0 < s.stability) :=
      fun hcon => h3 (List.length_eq_zero.mp hcon.1)
    rw [if_neg (by omega), if_neg (by omega), if_neg hcon]
  · have hc : countLost rand0 3 0 1 = 1 := by
      have hr : List.range 1 = [0] := rfl
      norm_num [countLost, hr, List.filter_cons, rand0]
    have h1 : applyCurrentCard cfg5 rand0 s5 0 =
        ({ (applyCardEffects cfg5 rand0 card5.2
              { s5 with cardHistory := histPush card5 s5.cardHistory } 0).1
            with pendingCard := none },
         (applyCardEffects cfg5 rand0 card5.2
              { s5 with cardHistory := histPush card5 s5.cardHistory } 0).2,
         none) := by
      unfold applyCurrentCard
      rfl
    rw [h1, applyCardEffects_decomp, show card5.2.blocks.toNat = 1 from rfl,
      pullBlocks_one]
    unfold pullBlock
    norm_num [failureThreshold, checkGameEnd, endGame, s5, cfg5, card5, histPush, hc]

/-- C5 witness: the first precedence rule applied at a concrete state. -/
theorem checkGameEnd_precedence_witness :
    checkGameEnd { baseState with stability := 0 } =
      endGame .stability { baseState with stability := 0 } :=
  checkGameEnd_precedence.1 { baseState with stability := 0 } (by decide)

/-- C6: pullBlock is a no-op at stability <= 0; the failure threshold is
3 in the critical band, 2 in the danger band, 1 above; applyCardEffects
applies the token delta first, then runs pullBlock exactly
block_pull_count times sequentially (an iterate of the pullBlock step,
so the banding is re-evaluated from the current state on every pull),
and checkGameEnd runs last.  The concrete run shows a mid-batch
crossing: with danger 4, a first pull from stability 5 (threshold 1)
that loses two blocks leaves stability 3, so the next pull of the same
card uses threshold 2. -/
theorem pullBlock_banding_and_sequencing (cfg : Config) (rand : Nat → ℚ) :
    (∀ (s : GameState) (k : Nat), s.stability ≤ 0 → pullBlock cfg rand s k = (s, k))
  ∧ (∀ s : GameState, s.stability ≤ cfg.critical → failureThreshold cfg s = 3)
  ∧ (∀ s : GameState, cfg.critical < s.stability → s.stability ≤ cfg.danger →
        failureThreshold cfg s = 2)
  ∧ (∀ s : GameState, cfg.critical < s.stability → cfg.danger < s.stability →
        failureThreshold cfg s = 1)
  ∧ (∀ (cd : CardData) (s : GameState) (k : Nat),
        applyCardEffects cfg rand cd s k =
          (checkGameEnd (pullBlocks cfg rand cd.blocks.toNat
              { s with tokens := s.tokens + cd.tokens } k).1,
           (pullBlocks cfg rand cd.blocks.toNat
              { s with tokens := s.tokens + cd.tokens } k).2))
  ∧ (∀ (m : Nat) (s : GameState) (k : Nat),
        pullBlocks cfg rand m s k = (pullBlockP cfg rand)^[m] (s, k))
  ∧ (failureThreshold cfg6 s6 = 1
      ∧ (pullBlock cfg6 rand6 s6 0).1.stability = 3
      ∧ failureThreshold cfg6 (pullBlock cfg6 rand6 s6 0).1 = 2) := by
  refine ⟨?_, ?_, ?_, ?_, fun cd s k => applyCardEffects_decomp cfg rand cd s k,
    fun m s k => pullBlocks_eq_iterate cfg rand m s k, ?_⟩
  · intro s k h
    unfold pullBlock
    rw [if_pos h]
  · intro s h
    unfold failureThreshold
    rw [if_pos h]
  · intro s h1 h2
    unfold failureThreshold
    rw [if_neg (by omega), if_pos h2]
  · intro s h1 h2
    unfold failureThreshold
    rw [if_neg (by omega), if_neg (by omega)]
  · have hc : countLost rand6 1 0 5 = 2 := by
      have hr : List.range 5 = [0, 1, 2, 3, 4] := rfl
      norm_num [countLost, hr, List.filter_cons, rand6]
    have hpull : (pullBlock cfg6 rand6 s6 0).1.stability = 3 := by
      unfold pullBlock
      rw [if_neg (by decide), show failureThreshold cfg6 s6 = 1 from by decide,
        show s6.stability.toNat = 5 from rfl]
      dsimp only
      rw [hc]
      norm_num [endGame, s6, baseState]
    refine ⟨by decide, hpull, ?_⟩
    unfold failureThreshold
    rw [hpull, if_neg (by decide), if_pos (by decide)]

/-- C6 witness: the no-op clause applied at a concrete state. -/
theorem pullBlock_banding_and_sequencing_witness :
    pullBlock cfg0 rand0 { baseState with stability := 0 } 0 =
      ({ baseState with stability := 0 }, 0) :=
  (pullBlock_banding_and_sequencing cfg0 rand0).1 { baseState with stability := 0 } 0
    (by decide)

/-- C7: the unshuffled deck is exactly the 52 distinct identities (4
suits x 13 ranks, every identity present, no duplicates); shuffling
produces a permutation; initializeDeck therefore yields a permutation of
the 52 identities; a draw removes and returns the last element of the
deck; and from a duplicate-free deck the drawn identity is no longer in
the remaining deck, which stays duplicate-free — so no identity can be
returned twice within one life of the deck. -/
theorem deck_integrity (cfg : Config) (rand : Nat → ℚ) (tbl : Card → CardData) :
    (fullDeck.length = 52 ∧ fullDeck.Nodup ∧ ∀ c : Card, c ∈ fullDeck)
  ∧ (∀ (l : List Card) (k : Nat), (shuffleDeck rand l k).1.Perm l)
  ∧ (∀ (s : GameState) (k : Nat), (initializeDeck rand s k).1.deck.Perm fullDeck)
  ∧ (∀ (s : GameState) (k : Nat) (c : Card), s.pendingCard = none →
        s.deck.getLast? = some c →
        drawCard cfg rand tbl s k =
          ({ s with deck := s.deck.dropLast, pendingCard := some (c, tbl c) },
           k, none))
  ∧ (∀ (s : GameState) (k : Nat) (c : Card), s.deck.Nodup → s.pendingCard = none →
        s.deck.getLast? = some c →
        c ∉ (drawCard cfg rand tbl s k).1.deck
        ∧ (drawCard cfg rand tbl s k).1.deck.Nodup) := by
  refine ⟨⟨fullDeck_length, ?_, ?_⟩, fun l k => shuffleDeck_perm rand l k, ?_,
    fun s k c hp hl => drawCard_pop cfg rand tbl s k c hp hl, ?_⟩
  · decide
  · rintro ⟨cs, cv⟩
    have hs : cs ∈ suits := by cases cs <;> decide
    have hv : cv ∈ values := by cases cv <;> decide
    unfold fullDeck
    exact List.mem_flatten.mpr
      ⟨values.map (fun v => { suit := cs, value := v }),
       List.mem_map.mpr ⟨cs, hs, rfl⟩, List.mem_map.mpr ⟨cv, hv, rfl⟩⟩
  · intro s k
    rw [(initializeDeck_frame rand s k).2.2.2.2]
    exact shuffleDeck_perm rand fullDeck k
  · intro s k c hn hp hl
    rw [drawCard_pop cfg rand tbl s k c hp hl]
    dsimp only
    have hm : c ∈ s.deck.getLast? := Option.mem_def.mpr hl
    have heq := List.dropLast_append_getLast? c hm
    rw [← heq] at hn
    rcases List.nodup_append.mp hn with ⟨h1, _, hdisj⟩
    exact ⟨fun hc => hdisj hc (by simp), h1⟩

/-- C7 witness: drawing from a concrete two-card duplicate-free deck. -/
theorem deck_integrity_witness :
    cardY ∉ (drawCard cfg0 rand0 tbl0 { baseState with deck := [cardX, cardY] } 0).1.deck
  ∧ (drawCard cfg0 rand0 tbl0 { baseState with deck := [cardX, cardY] } 0).1.deck.Nodup :=
  (deck_integrity cfg0 rand0 tbl0).2.2.2.2 { baseState with deck := [cardX, cardY] } 0
    cardY (by decide) (by decide) (by decide)

theorem histPush_eq_take (e : Card × CardData) (h : List (Card × CardData))
    (hle : h.length ≤ 10) : histPush e h = (e :: h).take 10 := by
  unfold histPush
  dsimp only
  split
  · rename_i hgt
    have h10 : h.length = 10 := by
      simp only [List.length_cons] at hgt
      omega
    rw [List.dropLast_eq_take]
    simp [h10]
  · rw [List.take_of_length_le (by omega)]

theorem histPush_length_le (e : Card × CardData) (h : List (Card × CardData))
    (hle : h.length ≤ 10) : (histPush e h).length ≤ 10 := by
  rw [histPush_eq_take e h hle]
  simp only [List.length_take]
  omega

theorem take_append_take {α : Type} (A B : List α) (n : Nat) :
    (A ++ B.take n).take n = (A ++ B).take n := by
  rw [List.take_append_eq_append_take, List.take_append_eq_append_take,
    List.take_take, Nat.min_eq_left (Nat.sub_le n A.length)]

theorem foldl_histPush (cs : List (Card × CardData)) :
    ∀ h : List (Card × CardData), h.length ≤ 10 →
      List.foldl (fun acc e => histPush e acc) h cs = (cs.reverse ++ h).take 10 := by
  induction cs with
  | nil =>
      intro h hle
      simp [List.take_of_length_le hle]
  | cons c cs ih =>
      intro h hle
      rw [List.foldl_cons, ih (histPush c h) (histPush_length_le c h hle),
        histPush_eq_take c h hle, take_append_take]
      simp [List.append_assoc]

/-- C8 counterexample: the claim fails for starting histories longer
than 10 (which the engine accepts from a loaded save): starting from an
11-entry history and playing 11 full draw-and-confirm rounds of distinct
cards, the history still has 11 entries, not exactly the 10 most
recently applied cards. -/
theorem history_cap_counterexample :
    s8.cardHistory.length = 11
  ∧ s8.deck.length = 11
  ∧ ((round8)^[11] (s8, 0)).1.cardHistory.length = 11 := by
  refine ⟨by decide, by decide, by decide⟩

/-- C8 amended: confirming a pending card prepends it to the history and
pops one entry when the length exceeds 10; for every starting history of
at most 10 entries (the only histories the engine itself produces) this
is exactly a prepend-and-truncate to 10, and applying 11 cards leaves
exactly the 10 most recent in most-recent-first order.  Longer
(externally loaded) histories keep their excess length, one-in one-out. -/
theorem history_cap_amended (cfg : Config) (rand : Nat → ℚ) :
    (∀ (s : GameState) (k : Nat) (e : Card × CardData), s.pendingCard = some e →
        (applyCurrentCard cfg rand s k).1.cardHistory = histPush e s.cardHistory)
  ∧ (∀ (e : Card × CardData) (h : List (Card × CardData)), h.length ≤ 10 →
        histPush e h = (e :: h).take 10)
  ∧ (∀ h : List (Card × CardData), h.length ≤ 10 →
        ∀ cs : List (Card × CardData),
          List.foldl (fun acc e => histPush e acc) h cs = (cs.reverse ++ h).take 10)
  ∧ (∀ h : List (Card × CardData), h.length ≤ 10 →
        ∀ cs : List (Card × CardData), cs.length = 11 →
          List.foldl (fun acc e => histPush e acc) h cs = cs.reverse.take 10) := by
  refine ⟨?_, fun e h hle => histPush_eq_take e h hle,
    fun h hle cs => foldl_histPush cs h hle, ?_⟩
  · intro s k e hp
    have h1 : applyCurrentCard cfg rand s k =
        ({ (applyCardEffects cfg rand e.2
              { s with cardHistory := histPush e s.cardHistory } k).1
            with pendingCard := none },
         (applyCardEffects cfg rand e.2
              { s with cardHistory := histPush e s.cardHistory } k).2,
         none) := by
      unfold applyCurrentCard
      rw [hp]
    rw [h1]
    dsimp only
    rw [applyCardEffects_cardHistory]
  · intro h hle cs hlen
    rw [foldl_histPush cs h hle]
    simp [List.take_append_eq_append_take, hlen]

/-- C8 witness: the theorem applied to an empty starting history and the
concrete 11-entry card list. -/
theorem history_cap_amended_witness :
    List.foldl (fun acc e => histPush e acc) [] hist11 = hist11.reverse.take 10 :=
  (history_cap_amended cfg0 rand0).2.2.2 [] (by decide) hist11 (by decide)

end Wretched
